import Mathlib

/-!
Verification of the mini-net didactic network stack.

Shallow embedding of the core stack, translated from the Python source:
- `src/net/stack/transport/impl/reliable_connection.py` (ReliableConnection)
- `src/net/stack/transport/impl/reliable_transport.py` (ReliableTransport)
- `src/net/stack/network/impl/router.py` (RouterNetwork)
- `src/net/stack/network/impl/host.py` (HostNetwork)
- `src/net/stack/link/impl/simple.py` (SimpleLink)

The wire data structures (Segment / Packet / Frame) live in `net/base`
(provided externally to the project); they are modelled from the spec's
data-model section. Queues are modelled as lists (FIFO: enqueue at the
tail, take from the head); the blocking `queue.get(timeout=...)` calls of
the send/close loops are modelled by an explicit list of get results,
where `none` stands for a `queue.Empty` timeout.
-/

namespace MiniNet

/-- MSS constant from reliable_connection.py. -/
def MSS : Nat := 1024

/-- MAX_FIN_RETRIES constant from reliable_connection.py. -/
def MAX_FIN_RETRIES : Nat := 8

/-- DEFAULT_TTL constant from net/stack/network/protocol.py. -/
def DEFAULT_TTL : Int := 64

/-- Bytes are modelled as natural numbers below 256 (Python `bytes` items). -/
abbrev Byte := Nat

/-- The base64 alphabet, as used by `base64.b64encode`. -/
def b64Alphabet : List Char :=
  "ABCDEFGHIJKLMNOPQRSTUVWXYZabcdefghijklmnopqrstuvwxyz0123456789+/".toList

/-- The base64 character for a 6-bit value. -/
def b64Char (n : Nat) : Char := b64Alphabet.getD n 'A'

/-- `base64.b64encode` on a byte string, producing the padded character list.
Groups of three bytes become four alphabet characters; a final group of one
or two bytes is padded with `=`. -/
def b64encodeChars : List Byte → List Char
  | [] => []
  | [a] => [b64Char (a / 4 % 64), b64Char (a % 4 * 16), '=', '=']
  | [a, b] =>
      [b64Char (a / 4 % 64), b64Char (a % 4 * 16 + b / 16 % 16),
       b64Char (b % 16 * 4), '=']
  | a :: b :: c :: rest =>
      b64Char (a / 4 % 64) :: b64Char (a % 4 * 16 + b / 16 % 16) ::
      b64Char (b % 16 * 4 + c / 64 % 4) :: b64Char (c % 64) ::
      b64encodeChars rest

/-- `base64.b64encode(chunk).decode()` as a Lean string. -/
def b64encode (bs : List Byte) : String := String.mk (b64encodeChars bs)

/-- The 6-bit value of a base64 character (index in the alphabet). -/
def b64Val (c : Char) : Nat := (b64Alphabet.indexOf c)

/-- `base64.b64decode` on the character list of a well-padded base64 string. -/
def b64decodeChars : List Char → List Byte
  | a :: b :: '=' :: '=' :: _ => [b64Val a * 4 + b64Val b / 16]
  | a :: b :: c :: '=' :: _ =>
      [b64Val a * 4 + b64Val b / 16, b64Val b % 16 * 16 + b64Val c / 4]
  | a :: b :: c :: d :: rest =>
      (b64Val a * 4 + b64Val b / 16) :: (b64Val b % 16 * 16 + b64Val c / 4) ::
      (b64Val c % 4 * 64 + b64Val d) :: b64decodeChars rest
  | _ => []

/-- `base64.b64decode` as a function on Lean strings. -/
def b64decode (s : String) : List Byte := b64decodeChars s.data

/-- Modelled from the spec: the structured payload record carried by a
segment (`net/base` is external to src). Fields: source VIP, source port,
destination port, a `data` field (base64-encoded bytes for data segments;
empty for ACKs), a `more` flag, and an optional `fin` flag, which the code
reads with `payload.get("fin")` defaulting to false — here `fin` is a plain
boolean defaulting to `false` where the source omits the key. -/
structure Payload where
  src_ip : String
  src_port : Nat
  dst_port : Nat
  data : String
  more : Bool
  fin : Bool := false
  deriving Repr, DecidableEq

/-- Modelled from the spec: the L4 unit (`Segmento` in `net/base`, external
to src). `seq_num` (0 or 1 — alternating bit), `is_ack`, and the structured
payload. The source constructs it with keyword `seq_num` and reads the
attribute `sequence_number`; both name the same field here. -/
structure Segment where
  sequence_number : Nat
  is_ack : Bool
  payload : Payload
  deriving Repr, DecidableEq

/-- Modelled from the spec: the L3 unit (`Pacote` in `net/base`, external to
src). Fields `src_vip`, `dst_vip`, mutable integer `ttl`, and the embedded
segment (`segmento_dict` in the constructor, read back as `.data`). -/
structure Packet where
  src_vip : String
  dst_vip : String
  ttl : Int
  data : Segment
  deriving Repr, DecidableEq

/-- A virtual address (VIP, port) pair, `VirtualAddress` in net/model. -/
structure VirtualAddress where
  vip : String
  port : Nat
  deriving Repr, DecidableEq

/-! ## ReliableConnection.send — chunking (reliable_connection.py lines 50-66)

`chunks = [data[i : i + MSS] for i in range(0, max(1, len(data)), MSS)]`
then for each indexed chunk, `more = i < len(chunks) - 1` and
`_send_chunk(chunk, more=more)` is called in order. -/

/-- Python `data[i : i + MSS]` on a byte list. -/
def pySlice (data : List Byte) (i len : Nat) : List Byte :=
  (data.drop i).take len

/-- `range(0, max(1, len(data)), MSS)`: the chunk start offsets. -/
def chunkStarts (n : Nat) : List Nat :=
  (List.range ((max 1 n + MSS - 1) / MSS)).map (· * MSS)

/-- The chunk list built by `ReliableConnection.send`. -/
def chunks (data : List Byte) : List (List Byte) :=
  (chunkStarts data.length).map (fun i => pySlice data i MSS)

/-- The (chunk, more) pairs handed to `_send_chunk`, in order:
`more = i < len(chunks) - 1`. -/
def sendPlan (data : List Byte) : List (List Byte × Bool) :=
  let cs := chunks data
  (cs.enum).map (fun p => (p.2, decide (p.1 < cs.length - 1)))

/-! ## Segment constructors (reliable_connection.py / reliable_transport.py) -/

/-- The data segment built by `_send_chunk` (lines 185-195): `seq_num =
send_sequence`, `is_ack = False`, payload with the base64-encoded chunk and
the `more` flag (no `fin` key). -/
def mkDataSegment (localA remote : VirtualAddress) (send_sequence : Nat)
    (chunk : List Byte) (more : Bool) : Segment :=
  { sequence_number := send_sequence
    is_ack := false
    payload :=
      { src_ip := localA.vip
        src_port := localA.port
        dst_port := remote.port
        data := b64encode chunk
        more := more } }

/-- The ACK built by `_send_ack` (lines 159-169) and by the transport's
unknown-key FIN path (reliable_transport.py lines 137-147): `is_ack = True`,
empty data, `more = False`, no `fin` key. -/
def mkAckSegment (localA remote : VirtualAddress) (ack_sequence : Nat) : Segment :=
  { sequence_number := ack_sequence
    is_ack := true
    payload :=
      { src_ip := localA.vip
        src_port := localA.port
        dst_port := remote.port
        data := ""
        more := false } }

/-- The FIN built by `close` (lines 96-107): `seq_num = send_sequence`,
empty data, `fin = True`, `more = False`. -/
def mkFinSegment (localA remote : VirtualAddress) (send_sequence : Nat) : Segment :=
  { sequence_number := send_sequence
    is_ack := false
    payload :=
      { src_ip := localA.vip
        src_port := localA.port
        dst_port := remote.port
        data := ""
        more := false
        fin := true } }

/-! ## Connection state -/

/-- The mutable state of a `ReliableConnection` (lines 41-48), plus
`onCloseCount`, which counts the invocations of the `on_close` callback.
The two queues are FIFO lists; `data_queue` holds `none` for the FIN
sentinel (`self.data_queue.put(None)`). -/
structure ConnState where
  local_address : VirtualAddress
  remote_address : VirtualAddress
  send_sequence : Nat
  receive_sequence : Nat
  ack_queue : List Segment
  data_queue : List (Option Segment)
  onCloseCount : Nat
  deriving Repr, DecidableEq

/-- A fresh connection (constructor, lines 41-48): both sequences 0,
empty mailboxes, callback not yet invoked. -/
def ConnState.init (localA remote : VirtualAddress) : ConnState :=
  { local_address := localA
    remote_address := remote
    send_sequence := 0
    receive_sequence := 0
    ack_queue := []
    data_queue := []
    onCloseCount := 0 }

/-- `ReliableConnection.dispatch` (lines 234-268). Returns the new
connection state and the segments emitted via `network.send`.
FIN: ACK the FIN's sequence number, push the sentinel, invoke `on_close`.
ACK: enqueue on `ack_queue`. Otherwise: enqueue on `data_queue`. -/
def ConnState.dispatch (c : ConnState) (s : Segment) : ConnState × List Segment :=
  if s.payload.fin then
    ({ c with data_queue := c.data_queue ++ [none],
              onCloseCount := c.onCloseCount + 1 },
     [mkAckSegment c.local_address c.remote_address s.sequence_number])
  else if s.is_ack then
    ({ c with ack_queue := c.ack_queue ++ [s] }, [])
  else
    ({ c with data_queue := c.data_queue ++ [some s] }, [])

/-! ## Send side (`_send_chunk`, lines 178-232)

The blocking `ack_queue.get(timeout=...)` calls are modelled by a list of
get results (`gets`): `some ack` is a delivered ACK segment, `none` is a
`queue.Empty` timeout that ends the inner wait window and triggers a
retransmission. -/

/-- The get-processing part of `_send_chunk`'s loops: a timeout retransmits
`seg` and keeps waiting; a matching ACK flips `send_sequence` by XOR 1 and
returns; a non-matching ACK is discarded. Returns the retransmissions (in
order) and `some` of the new `send_sequence` on completion (`none` when the
get results ran out with the call still waiting). -/
def sendChunkGets (send_sequence : Nat) (seg : Segment) :
    List (Option Segment) → List Segment × Option Nat
  | [] => ([], none)
  | none :: rest =>
      let r := sendChunkGets send_sequence seg rest
      (seg :: r.1, r.2)
  | some ack :: rest =>
      if ack.sequence_number = send_sequence then ([], some (send_sequence ^^^ 1))
      else sendChunkGets send_sequence seg rest

/-- A full `_send_chunk` run on the given segment: the initial
transmission (line 198 on first iteration) followed by `sendChunkGets`. -/
def sendChunkRun (send_sequence : Nat) (seg : Segment)
    (gets : List (Option Segment)) : List Segment × Option Nat :=
  let r := sendChunkGets send_sequence seg gets
  (seg :: r.1, r.2)

/-- `_send_chunk(chunk, more=more)`: builds the data segment once, then
runs the retransmission loop. -/
def sendChunk (localA remote : VirtualAddress) (send_sequence : Nat)
    (chunk : List Byte) (more : Bool) (gets : List (Option Segment)) :
    List Segment × Option Nat :=
  sendChunkRun send_sequence (mkDataSegment localA remote send_sequence chunk more) gets

/-! ## Receive side (`_receive_chunk`, lines 270-301) -/

/-- How a `_receive_chunk` call ends: a segment accepted, or `EOFError`
raised on the FIN sentinel. -/
inductive RecvOutcome where
  | accepted (s : Segment)
  | eof
  deriving Repr, DecidableEq

/-- Result of a `_receive_chunk` run over the data queue. -/
structure RecvResult where
  acks : List Segment
  outcome : Option RecvOutcome
  recvSeq : Nat
  rest : List (Option Segment)
  deriving Repr, DecidableEq

/-- `_receive_chunk`: take from `data_queue`; `none` raises `EOFError`; a
segment with an unexpected sequence number is re-ACKed with
`receive_sequence ^ 1` and discarded; the expected one is ACKed,
`receive_sequence` flips, and the segment is returned. `outcome = none`
means the queue ran out with the call still blocked on `get()`. -/
def receiveChunk (localA remote : VirtualAddress) (receive_sequence : Nat) :
    List (Option Segment) → RecvResult
  | [] => ⟨[], none, receive_sequence, []⟩
  | none :: rest => ⟨[], some .eof, receive_sequence, rest⟩
  | some s :: rest =>
      if s.sequence_number ≠ receive_sequence then
        let r := receiveChunk localA remote receive_sequence rest
        { r with acks := mkAckSegment localA remote (receive_sequence ^^^ 1) :: r.acks }
      else
        ⟨[mkAckSegment localA remote s.sequence_number], some (.accepted s),
         receive_sequence ^^^ 1, rest⟩

/-! ## Logical receive (`receive`, lines 68-92)

Accumulate decoded chunk data until a chunk with `more = False` arrives;
`EOFError` (the FIN sentinel) makes the whole call return `None`,
discarding the buffer. The result is `none` when the queue ran out with
the call still blocked, `some none` for the Python `None` return, and
`some (some bs)` for a returned byte string. -/

/-- `ReliableConnection.receive`: the reassembly loop, i.e. repeated
`_receive_chunk` calls (inlined structurally over the data queue) with the
decoded chunk data appended to `buffer` until a chunk with `more = False`
arrives; the FIN sentinel raises `EOFError`, which `receive` turns into the
Python `None` return (`some none` here), discarding the buffer. `none`
means the queue ran out with the call still blocked. -/
def receiveLoop (localA remote : VirtualAddress) (r : Nat) :
    List (Option Segment) → List Byte → Option (Option (List Byte))
  | [], _ => none
  | none :: _, _ => some none
  | some s :: rest, buffer =>
      if s.sequence_number ≠ r then receiveLoop localA remote r rest buffer
      else
        let buffer2 := buffer ++ b64decode s.payload.data
        if s.payload.more then receiveLoop localA remote (r ^^^ 1) rest buffer2
        else some (some buffer2)

/-- The number of segments `_receive_chunk` accepts (and so flips
`receive_sequence` for) when draining the queue repeatedly from sequence
`r` until it blocks or hits the sentinel. -/
def acceptCount (localA remote : VirtualAddress) (r : Nat) :
    List (Option Segment) → Nat
  | [] => 0
  | none :: _ => 0
  | some s :: rest =>
      if s.sequence_number ≠ r then acceptCount localA remote r rest
      else 1 + acceptCount localA remote (r ^^^ 1) rest

/-- The structural drain agrees with the per-call `receiveChunk` model: one
`_receive_chunk` call accepts one segment and the drain continues from its
resulting sequence and queue. -/
theorem acceptCount_receiveChunk (localA remote : VirtualAddress) (r : Nat)
    (q : List (Option Segment)) :
    acceptCount localA remote r q =
      (match (receiveChunk localA remote r q).outcome with
       | none => 0
       | some .eof => 0
       | some (.accepted _) =>
           1 + acceptCount localA remote (receiveChunk localA remote r q).recvSeq
                 (receiveChunk localA remote r q).rest) := by
  induction q with
  | nil => simp [acceptCount, receiveChunk]
  | cons hd t ih =>
      cases hd with
      | none => simp [acceptCount, receiveChunk]
      | some s =>
          by_cases hs : s.sequence_number ≠ r
          · simpa [acceptCount, receiveChunk, hs] using ih
          · simp [acceptCount, receiveChunk, hs]

/-! ## Close protocol (`close`, lines 94-151)

Same get-result modelling as `_send_chunk`. One attempt window drains get
results until a timeout (`none`, breaking to the next attempt) or an ACK
matching `send_sequence` (teardown complete). -/

/-- One attempt's wait window: `(some true, rest)` when a matching ACK
arrived, `(some false, rest)` on timeout, `(none, [])` when the get results
ran out with the call still waiting. Non-matching ACKs are drained and
ignored. -/
def closeInner (send_sequence : Nat) :
    List (Option Segment) → Option Bool × List (Option Segment)
  | [] => (none, [])
  | none :: rest => (some false, rest)
  | some ack :: rest =>
      if ack.sequence_number = send_sequence then (some true, rest)
      else closeInner send_sequence rest

/-- The retry loop of `close`, with `attempts` remaining FIN attempts.
Returns the number of FINs sent and `some true` (ACKed), `some false`
(retries exhausted), or `none` (get results ran out mid-attempt). -/
def closeAttempts (send_sequence : Nat) :
    Nat → List (Option Segment) → Nat × Option Bool
  | 0, _ => (0, some false)
  | n + 1, gets =>
      match closeInner send_sequence gets with
      | (some true, _) => (1, some true)
      | (some false, rest) =>
          let r := closeAttempts send_sequence n rest
          (r.1 + 1, r.2)
      | (none, _) => (1, none)

/-- A full `close()` run: up to `MAX_FIN_RETRIES` FIN attempts. -/
def closeRun (send_sequence : Nat) (gets : List (Option Segment)) :
    Nat × Option Bool :=
  closeAttempts send_sequence MAX_FIN_RETRIES gets

/-- How many times `close()` invokes the `on_close` callback: once when it
completes (whether the FIN was ACKed or the retries were exhausted), and
not at all while it is still waiting. -/
def closeOnCloseInvocations (send_sequence : Nat)
    (gets : List (Option Segment)) : Nat :=
  match (closeRun send_sequence gets).2 with
  | some _ => 1
  | none => 0

/-! ## Transport multiplexer (`reliable_transport.py`) -/

/-- A connection-table key: `(remote_vip, remote_port, local_port)`. -/
structure ConnKey where
  src_ip : String
  src_port : Nat
  dst_port : Nat
  deriving Repr, DecidableEq

/-- The key `_route` derives from a segment's payload (lines 113-116). -/
def segmentKey (s : Segment) : ConnKey :=
  ⟨s.payload.src_ip, s.payload.src_port, s.payload.dst_port⟩

/-- Association-list lookup in the connection table. -/
def lookupConn (key : ConnKey) :
    List (ConnKey × ConnState) → Option ConnState
  | [] => none
  | (k, c) :: rest => if k = key then some c else lookupConn key rest

/-- Replace the entry for `key` (the table holds at most one entry per
key). -/
def updateConn (key : ConnKey) (c : ConnState) :
    List (ConnKey × ConnState) → List (ConnKey × ConnState)
  | [] => []
  | (k, c0) :: rest =>
      if k = key then (k, c) :: rest else (k, c0) :: updateConn key c rest

/-- `connections.pop(key, None)`: the `_remove` callback. -/
def removeConn (key : ConnKey) :
    List (ConnKey × ConnState) → List (ConnKey × ConnState)
  | [] => []
  | (k, c0) :: rest =>
      if k = key then rest else (k, c0) :: removeConn key rest

/-- The state of a `ReliableTransport`: the connection table and the accept
queue (holding the registered keys of accepted connections, FIFO). -/
structure TransportState where
  local_address : VirtualAddress
  connections : List (ConnKey × ConnState)
  acceptQueue : List ConnKey
  deriving Repr, DecidableEq

/-- `ReliableTransport._route` (lines 112-175). Returns the new transport
state and the segments emitted via `network.send`. A FIN dispatched to a
registered connection triggers its `on_close`, which is the
`_remove(key)` lambda — the entry leaves the table. -/
def route (st : TransportState) (s : Segment) : TransportState × List Segment :=
  let key := segmentKey s
  match lookupConn key st.connections with
  | some conn =>
      let r := conn.dispatch s
      let table :=
        if s.payload.fin then removeConn key st.connections
        else updateConn key r.1 st.connections
      ({ st with connections := table }, r.2)
  | none =>
      if s.is_ack then (st, [])
      else if s.payload.fin then
        (st, [mkAckSegment st.local_address ⟨key.src_ip, key.src_port⟩
               s.sequence_number])
      else
        let remote : VirtualAddress := ⟨key.src_ip, key.src_port⟩
        let newConn := ConnState.init st.local_address remote
        let r := newConn.dispatch s
        ({ st with connections := (key, r.1) :: st.connections,
                   acceptQueue := st.acceptQueue ++ [key] },
         r.2)

/-! ## Network layer (host.py, router.py) and link layer (simple.py) -/

/-- Association-list form of the routing / ARP tables (`dict.get`). -/
def lookupTable (key : String) : List (String × String) → Option String
  | [] => none
  | (k, v) :: rest => if k = key then some v else lookupTable key rest

/-- Modelled from the spec: the L2 unit (`Quadro` in `net/base`, external
to src): source MAC, destination MAC, embedded packet, integrity tag
implicit in serialization. -/
structure Frame where
  src_mac : String
  dst_mac : String
  data : Packet
  deriving Repr, DecidableEq

/-- The configuration-level failures of a send path: `LookupError` raised
with the ARP message by `SimpleLink.send` and with the routing message by
`HostNetwork.send` / `RouterNetwork.send`. -/
inductive SendError where
  | arpFailure (vip : String)
  | routeFailure (vip : String)
  deriving Repr, DecidableEq

/-- `SimpleLink.send` (simple.py lines 42-76): resolve the destination VIP
in the ARP table; unknown VIP raises the ARP `LookupError` and nothing is
handed to the physical layer; otherwise the frame handed down is returned. -/
def linkSend (arp_table : List (String × String)) (local_mac : String)
    (packet : Packet) (destination : String) : Except SendError Frame :=
  match lookupTable destination arp_table with
  | none => .error (.arpFailure destination)
  | some destination_mac =>
      .ok { src_mac := local_mac, dst_mac := destination_mac, data := packet }

/-- `HostNetwork.send` (host.py lines 38-73): resolve a next hop in the
routing table (unknown destination raises the routing `LookupError`), build
a packet with `ttl = DEFAULT_TTL`, and hand it to `link.send` — whose ARP
failure is not caught. -/
def hostSend (routing_table arp_table : List (String × String))
    (local_vip local_mac : String) (segment : Segment)
    (destination : String) : Except SendError Frame :=
  match lookupTable destination routing_table with
  | none => .error (.routeFailure destination)
  | some next_hop =>
      let packet : Packet :=
        { src_vip := local_vip, dst_vip := destination,
          ttl := DEFAULT_TTL, data := segment }
      linkSend arp_table local_mac packet next_hop

/-- `HostNetwork.receive` (host.py lines 75-110): a packet not addressed to
the local VIP is dropped (`none`); otherwise the embedded segment is
returned. No TTL check. -/
def hostReceive (local_vip : String) (packet : Option Packet) :
    Option Segment :=
  match packet with
  | none => none
  | some p => if p.dst_vip ≠ local_vip then none else some p.data

/-- The router's mutable statistics (router.py lines 58-60). -/
structure RouterState where
  local_vip : String
  routing_table : List (String × String)
  forwarded : Nat
  dropped_ttl : Nat
  dropped_unknown : Nat
  deriving Repr, DecidableEq

/-- `RouterNetwork.receive` (router.py lines 108-154): always returns
`none` as the received segment; as a side effect it may re-emit the packet
with `ttl` decremented via `link.send` (the emission list holds
`(packet, next_hop)` pairs). -/
def routerReceive (st : RouterState) (packet : Option Packet) :
    RouterState × Option Segment × List (Packet × String) :=
  match packet with
  | none => (st, none, [])
  | some p =>
      if p.ttl ≤ 0 then
        ({ st with dropped_ttl := st.dropped_ttl + 1 }, none, [])
      else
        let p2 := { p with ttl := p.ttl - 1 }
        match lookupTable p2.dst_vip st.routing_table with
        | none =>
            ({ st with dropped_unknown := st.dropped_unknown + 1 }, none, [])
        | some next_hop =>
            ({ st with forwarded := st.forwarded + 1 }, none, [(p2, next_hop)])

/-! ## Theorems -/

/-- The chunk list is the range-indexed family of MSS slices. -/
theorem chunks_eq_range (data : List Byte) :
    chunks data =
      (List.range ((max 1 data.length + MSS - 1) / MSS)).map
        (fun i => (data.drop (i * MSS)).take MSS) := by
  simp [chunks, chunkStarts, List.map_map, pySlice, Function.comp]

/-- Concatenating the first `k` MSS-slices recovers the first `k * M`
bytes. -/
theorem join_slices (M : Nat) (k : Nat) (d : List Byte) :
    (((List.range k).map (fun i => (d.drop (i * M)).take M)).flatten)
      = d.take (k * M) := by
  induction k with
  | zero => simp
  | succ n ih =>
      rw [List.range_succ, List.map_append, List.flatten_append, ih]
      simp [Nat.succ_mul, List.take_add]

/-- The number of chunks times MSS covers the input length. -/
theorem length_le_numChunks_mul (n : Nat) :
    n ≤ ((max 1 n + MSS - 1) / MSS) * MSS := by
  have h := Nat.div_add_mod (max 1 n + MSS - 1) MSS
  have h2 : (max 1 n + MSS - 1) % MSS < MSS := Nat.mod_lt _ (by decide)
  simp only [MSS] at *
  omega

/-- Each planned chunk is the corresponding MSS slice and its `more` flag is
`i < len(chunks) - 1`. -/
theorem sendPlan_eq (data : List Byte) :
    sendPlan data =
      (List.range ((max 1 data.length + MSS - 1) / MSS)).map
        (fun i => (pySlice data (i * MSS) MSS,
          decide (i < (max 1 data.length + MSS - 1) / MSS - 1))) := by
  unfold sendPlan
  rw [chunks_eq_range data]
  apply List.ext_getElem
  · simp
  · intro i h1 h2
    simp [List.getElem_enum, pySlice]

/-- When a chunk is not the last, its slice spans a full MSS window. -/
theorem slice_full (n i : Nat) (h : i + 1 < (max 1 n + MSS - 1) / MSS) :
    i * MSS + MSS ≤ n := by
  have h1 := Nat.div_add_mod (max 1 n + MSS - 1) MSS
  have h2 : (max 1 n + MSS - 1) % MSS < MSS := Nat.mod_lt _ (by decide)
  simp only [MSS] at *
  omega

/-- C3: the logical send splits any byte string into MSS-sized chunks sent
in order — their concatenation is the input, every chunk but the last has
length exactly MSS, and the `more` flag is true exactly on the non-final
chunks; an empty input yields exactly one empty chunk with `more = false`,
and an input of length MSS + 1 yields exactly two chunks, the first of
length MSS with `more = true`. -/
theorem send_chunking_correct (data : List Byte) :
    (((sendPlan data).map Prod.fst).flatten = data) ∧
    ((sendPlan data).length = (max 1 data.length + MSS - 1) / MSS) ∧
    (∀ i (h : i < (sendPlan data).length),
      ((sendPlan data).get ⟨i, h⟩).2 = true ↔ i + 1 < (sendPlan data).length) ∧
    (∀ i (h : i < (sendPlan data).length), i + 1 < (sendPlan data).length →
      ((sendPlan data).get ⟨i, h⟩).1.length = MSS) ∧
    (data = [] → sendPlan data = [([], false)]) ∧
    (data.length = MSS + 1 →
      sendPlan data = [(data.take MSS, true), (data.drop MSS, false)]) := by
  have hplan := sendPlan_eq data
  have hlen : (sendPlan data).length = (max 1 data.length + MSS - 1) / MSS := by
    rw [hplan]; simp
  have hget : ∀ i (h : i < (sendPlan data).length),
      (sendPlan data).get ⟨i, h⟩ =
        (pySlice data (i * MSS) MSS,
         decide (i < (max 1 data.length + MSS - 1) / MSS - 1)) := by
    intro i h
    rw [List.get_eq_getElem, List.getElem_of_eq hplan h]
    simp
  refine ⟨?_, hlen, ?_, ?_, ?_, ?_⟩
  · rw [hplan, List.map_map]
    have hcomp :
        (Prod.fst ∘ fun i => (pySlice data (i * MSS) MSS,
          decide (i < (max 1 data.length + MSS - 1) / MSS - 1)))
          = fun i => (data.drop (i * MSS)).take MSS := by
      funext i; simp [pySlice]
    rw [hcomp, join_slices]
    exact List.take_of_length_le (length_le_numChunks_mul data.length)
  · intro i h
    rw [hget i h]
    simp only [decide_eq_true_eq]
    omega
  · intro i h h2
    rw [hget i h]
    have hfull : i * MSS + MSS ≤ data.length := by
      apply slice_full
      omega
    simp only [pySlice, List.length_take, List.length_drop]
    omega
  · intro hnil
    subst hnil
    rfl
  · intro h1025
    rw [hplan]
    have hK2 : (max 1 data.length + MSS - 1) / MSS = 2 := by
      rw [h1025]; rfl
    rw [hK2]
    have hdrop : (data.drop MSS).take MSS = data.drop MSS :=
      List.take_of_length_le (by simp [h1025, MSS])
    simp [List.range_succ, pySlice, hdrop]

/-- Witness for the chunking theorem: the empty message yields one empty
chunk, and a message of MSS + 1 equal bytes yields two chunks, the first a
full MSS window flagged `more = true`. -/
theorem send_chunking_correct_witness :
    sendPlan [] = [([], false)] ∧
    sendPlan (List.replicate (MSS + 1) 65) =
      [(List.replicate MSS 65, true), ([65], false)] ∧
    ∃ h : 0 < (sendPlan (List.replicate (MSS + 1) 65)).length,
      ((sendPlan (List.replicate (MSS + 1) 65)).get ⟨0, h⟩).2 = true ∧
      ((sendPlan (List.replicate (MSS + 1) 65)).get ⟨0, h⟩).1.length = MSS := by
  refine ⟨(send_chunking_correct []).2.2.2.2.1 rfl, ?_, ?_⟩
  · have h := (send_chunking_correct
      (List.replicate (MSS + 1) 65)).2.2.2.2.2 (by simp)
    rw [h, List.take_replicate, List.drop_replicate]
    norm_num [MSS]
  · have hlen := (send_chunking_correct (List.replicate (MSS + 1) 65)).2.1
    have hb : 0 < (sendPlan (List.replicate (MSS + 1) 65)).length := by
      rw [hlen]; norm_num [MSS]
    refine ⟨hb, ?_, ?_⟩
    · exact ((send_chunking_correct _).2.2.1 0 hb).mpr
        (by rw [hlen]; norm_num [MSS])
    · exact (send_chunking_correct _).2.2.2.1 0 hb
        (by rw [hlen]; norm_num [MSS])

/-- Every segment the `_send_chunk` loop emits is the segment it was
given. -/
theorem sendChunkGets_mem (s : Nat) (seg : Segment)
    (gets : List (Option Segment)) :
    ∀ t ∈ (sendChunkGets s seg gets).1, t = seg := by
  induction gets with
  | nil => simp [sendChunkGets]
  | cons g rest ih =>
      cases g with
      | none =>
          intro t ht
          simp only [sendChunkGets, List.mem_cons] at ht
          rcases ht with h | h
          · exact h
          · exact ih t h
      | some ack =>
          by_cases hm : ack.sequence_number = s
          · simp [sendChunkGets, hm]
          · simpa [sendChunkGets, hm] using ih

/-- When the `_send_chunk` loop completes, the new `send_sequence` is the
old one XORed with 1. -/
theorem sendChunkGets_some (s : Nat) (seg : Segment)
    (gets : List (Option Segment)) (n : Nat)
    (h : (sendChunkGets s seg gets).2 = some n) : n = s ^^^ 1 := by
  induction gets with
  | nil => simp [sendChunkGets] at h
  | cons g rest ih =>
      cases g with
      | none =>
          simp only [sendChunkGets] at h
          exact ih h
      | some ack =>
          by_cases hm : ack.sequence_number = s
          · simp [sendChunkGets, hm] at h
            omega
          · simp only [sendChunkGets, if_neg hm] at h
            exact ih h

/-- The `_send_chunk` loop completes exactly when an ACK carrying the
current `send_sequence` is among the taken mailbox entries. -/
theorem sendChunkGets_isSome_iff (s : Nat) (seg : Segment)
    (gets : List (Option Segment)) :
    (sendChunkGets s seg gets).2.isSome ↔
      ∃ a : Segment, some a ∈ gets ∧ a.sequence_number = s := by
  induction gets with
  | nil => simp [sendChunkGets]
  | cons g rest ih =>
      cases g with
      | none => simpa [sendChunkGets] using ih
      | some ack =>
          by_cases hm : ack.sequence_number = s
          · simp [sendChunkGets, hm]
          · simp only [sendChunkGets, if_neg hm, ih, List.mem_cons]
            constructor
            · rintro ⟨a, ha, has⟩
              exact ⟨a, Or.inr ha, has⟩
            · rintro ⟨a, ha | ha, has⟩
              · cases Option.some.inj ha
                exact absurd has hm
              · exact ⟨a, ha, has⟩

/-- A run whose gets are `n` timeouts retransmits `n` times and is still
waiting. -/
theorem sendChunkGets_replicate_none (s : Nat) (seg : Segment) (n : Nat) :
    sendChunkGets s seg (List.replicate n none) =
      (List.replicate n seg, none) := by
  induction n with
  | zero => simp [sendChunkGets]
  | succ k ih => simp [List.replicate_succ, sendChunkGets, ih]

/-- C1: `_send_chunk` transmits a data segment whose `seq_num` is the
current `send_sequence`; every (re)transmission is that identical segment;
the call completes exactly when an ACK equal to `send_sequence` is taken
from the ack mailbox, and then `send_sequence` flips exactly once via XOR
with 1; a non-matching ACK is discarded with no effect; each timeout
retransmits, with no bound on the number of retransmissions. -/
theorem send_chunk_protocol (localA remote : VirtualAddress) (sseq : Nat)
    (chunk : List Byte) (more : Bool) (gets : List (Option Segment)) :
    ((mkDataSegment localA remote sseq chunk more).sequence_number = sseq ∧
     (mkDataSegment localA remote sseq chunk more).is_ack = false) ∧
    (∀ t ∈ (sendChunk localA remote sseq chunk more gets).1,
       t = mkDataSegment localA remote sseq chunk more) ∧
    (∀ n, (sendChunk localA remote sseq chunk more gets).2 = some n →
       n = sseq ^^^ 1) ∧
    ((sendChunk localA remote sseq chunk more gets).2.isSome ↔
       ∃ a : Segment, some a ∈ gets ∧ a.sequence_number = sseq) ∧
    (∀ a rest, a.sequence_number ≠ sseq →
       sendChunkGets sseq (mkDataSegment localA remote sseq chunk more)
           (some a :: rest)
         = sendChunkGets sseq (mkDataSegment localA remote sseq chunk more)
           rest) ∧
    (∀ n, sendChunk localA remote sseq chunk more (List.replicate n none)
        = (List.replicate (n + 1)
            (mkDataSegment localA remote sseq chunk more), none)) := by
  refine ⟨⟨rfl, rfl⟩, ?_, ?_, ?_, ?_, ?_⟩
  · intro t ht
    simp only [sendChunk, sendChunkRun, List.mem_cons] at ht
    rcases ht with h | h
    · exact h
    · exact sendChunkGets_mem sseq _ gets t h
  · intro n h
    simp only [sendChunk, sendChunkRun] at h
    exact sendChunkGets_some sseq _ gets n h
  · simpa only [sendChunk, sendChunkRun] using
      sendChunkGets_isSome_iff sseq (mkDataSegment localA remote sseq chunk more) gets
  · intro a rest ha
    simp [sendChunkGets, ha]
  · intro n
    simp [sendChunk, sendChunkRun, sendChunkGets_replicate_none,
      List.replicate_succ]

/-- Witness for the send-chunk protocol: from `send_sequence = 0`, a
timeout then a stray ACK (seq 1) then the matching ACK (seq 0) complete the
chunk with one retransmission and flip the sequence to 1. -/
theorem send_chunk_protocol_witness :
    ((1 : Nat) = 0 ^^^ 1) ∧
    (sendChunk ⟨"1.1.1.1", 1⟩ ⟨"2.2.2.2", 2⟩ 0 [1, 2] false
        [none, some (mkAckSegment ⟨"2.2.2.2", 2⟩ ⟨"1.1.1.1", 1⟩ 1),
         some (mkAckSegment ⟨"2.2.2.2", 2⟩ ⟨"1.1.1.1", 1⟩ 0)]).2.isSome ∧
    (sendChunkGets 0 (mkDataSegment ⟨"1.1.1.1", 1⟩ ⟨"2.2.2.2", 2⟩ 0 [1, 2] false)
        [some (mkAckSegment ⟨"2.2.2.2", 2⟩ ⟨"1.1.1.1", 1⟩ 1)]
      = sendChunkGets 0 (mkDataSegment ⟨"1.1.1.1", 1⟩ ⟨"2.2.2.2", 2⟩ 0 [1, 2] false)
        []) ∧
    (sendChunk ⟨"1.1.1.1", 1⟩ ⟨"2.2.2.2", 2⟩ 0 [1, 2] false
        (List.replicate 2 none)
      = (List.replicate 3
          (mkDataSegment ⟨"1.1.1.1", 1⟩ ⟨"2.2.2.2", 2⟩ 0 [1, 2] false), none)) := by
  have h := send_chunk_protocol ⟨"1.1.1.1", 1⟩ ⟨"2.2.2.2", 2⟩ 0 [1, 2] false
    [none, some (mkAckSegment ⟨"2.2.2.2", 2⟩ ⟨"1.1.1.1", 1⟩ 1),
     some (mkAckSegment ⟨"2.2.2.2", 2⟩ ⟨"1.1.1.1", 1⟩ 0)]
  refine ⟨h.2.2.1 1 ?_, ?_, ?_, ?_⟩
  · simp [sendChunk, sendChunkRun, sendChunkGets, mkAckSegment]
  · refine h.2.2.2.1.mpr ⟨mkAckSegment ⟨"2.2.2.2", 2⟩ ⟨"1.1.1.1", 1⟩ 0, ?_, rfl⟩
    simp
  · exact h.2.2.2.2.1 (mkAckSegment ⟨"2.2.2.2", 2⟩ ⟨"1.1.1.1", 1⟩ 1) []
      (by simp [mkAckSegment])
  · exact h.2.2.2.2.2 2

/-- Flipping the alternating bit always changes the sequence number. -/
theorem xor_one_ne (r : Nat) : r ^^^ 1 ≠ r := by
  intro h
  have h2 : r ^^^ (r ^^^ 1) = r ^^^ r := congrArg (r ^^^ ·) h
  rw [← Nat.xor_assoc, Nat.xor_self, Nat.zero_xor] at h2
  simp at h2

/-- C2: a data segment taken with an unexpected `seq_num` is discarded and
re-ACKed with `receive_sequence ^ 1`, leaving the rest of the run
unchanged; the expected segment is ACKed with its own sequence number and
flips `receive_sequence` exactly once; delivering the same data segment
twice yields exactly one acceptance and one application-level delivery. -/
theorem receive_chunk_protocol (localA remote : VirtualAddress) (r : Nat) :
    (∀ (s : Segment) rest, s.sequence_number ≠ r →
       receiveChunk localA remote r (some s :: rest) =
         { receiveChunk localA remote r rest with
           acks := mkAckSegment localA remote (r ^^^ 1) ::
             (receiveChunk localA remote r rest).acks }) ∧
    (∀ (s : Segment) rest, s.sequence_number = r →
       receiveChunk localA remote r (some s :: rest) =
         ⟨[mkAckSegment localA remote s.sequence_number],
          some (.accepted s), r ^^^ 1, rest⟩) ∧
    (∀ s : Segment, s.sequence_number = r →
       acceptCount localA remote r [some s, some s] = 1) ∧
    (∀ s : Segment, s.sequence_number = r → s.payload.more = false →
       receiveLoop localA remote r [some s, some s] [] =
         some (some (b64decode s.payload.data))) := by
  refine ⟨?_, ?_, ?_, ?_⟩
  · intro s rest hs
    simp [receiveChunk, hs]
  · intro s rest hs
    simp [receiveChunk, hs]
  · intro s hs
    have hne : s.sequence_number ≠ r ^^^ 1 := by
      rw [hs]
      exact fun h => xor_one_ne r h.symm
    have hne2 : ¬r = r ^^^ 1 := fun h => xor_one_ne r h.symm
    simp [acceptCount, receiveChunk, hs, hne, hne2]
  · intro s hs hm
    have hne : s.sequence_number ≠ r ^^^ 1 := by
      rw [hs]
      exact fun h => xor_one_ne r h.symm
    simp [receiveLoop, receiveChunk, hs, hne, hm]

/-- Witness for the receive-chunk protocol at `receive_sequence = 0` with a
concrete duplicate data segment of sequence 0. -/
theorem receive_chunk_protocol_witness :
    (receiveChunk ⟨"2.2.2.2", 2⟩ ⟨"1.1.1.1", 1⟩ 0
        [some (mkDataSegment ⟨"1.1.1.1", 1⟩ ⟨"2.2.2.2", 2⟩ 1 [7] false)] =
      { receiveChunk ⟨"2.2.2.2", 2⟩ ⟨"1.1.1.1", 1⟩ 0 [] with
        acks := mkAckSegment ⟨"2.2.2.2", 2⟩ ⟨"1.1.1.1", 1⟩ (0 ^^^ 1) ::
          (receiveChunk ⟨"2.2.2.2", 2⟩ ⟨"1.1.1.1", 1⟩ 0 []).acks }) ∧
    (receiveChunk ⟨"2.2.2.2", 2⟩ ⟨"1.1.1.1", 1⟩ 0
        [some (mkDataSegment ⟨"1.1.1.1", 1⟩ ⟨"2.2.2.2", 2⟩ 0 [7] false)] =
      ⟨[mkAckSegment ⟨"2.2.2.2", 2⟩ ⟨"1.1.1.1", 1⟩ 0],
       some (.accepted (mkDataSegment ⟨"1.1.1.1", 1⟩ ⟨"2.2.2.2", 2⟩ 0 [7] false)),
       0 ^^^ 1, []⟩) ∧
    (acceptCount ⟨"2.2.2.2", 2⟩ ⟨"1.1.1.1", 1⟩ 0
        [some (mkDataSegment ⟨"1.1.1.1", 1⟩ ⟨"2.2.2.2", 2⟩ 0 [7] false),
         some (mkDataSegment ⟨"1.1.1.1", 1⟩ ⟨"2.2.2.2", 2⟩ 0 [7] false)] = 1) ∧
    (receiveLoop ⟨"2.2.2.2", 2⟩ ⟨"1.1.1.1", 1⟩ 0
        [some (mkDataSegment ⟨"1.1.1.1", 1⟩ ⟨"2.2.2.2", 2⟩ 0 [7] false),
         some (mkDataSegment ⟨"1.1.1.1", 1⟩ ⟨"2.2.2.2", 2⟩ 0 [7] false)] [] =
      some (some (b64decode
        (mkDataSegment ⟨"1.1.1.1", 1⟩ ⟨"2.2.2.2", 2⟩ 0 [7] false).payload.data))) := by
  have h := receive_chunk_protocol ⟨"2.2.2.2", 2⟩ ⟨"1.1.1.1", 1⟩ 0
  exact ⟨h.1 (mkDataSegment ⟨"1.1.1.1", 1⟩ ⟨"2.2.2.2", 2⟩ 1 [7] false) []
           (by simp [mkDataSegment]),
         h.2.1 (mkDataSegment ⟨"1.1.1.1", 1⟩ ⟨"2.2.2.2", 2⟩ 0 [7] false) [] rfl,
         h.2.2.1 (mkDataSegment ⟨"1.1.1.1", 1⟩ ⟨"2.2.2.2", 2⟩ 0 [7] false) rfl,
         h.2.2.2 (mkDataSegment ⟨"1.1.1.1", 1⟩ ⟨"2.2.2.2", 2⟩ 0 [7] false) rfl rfl⟩

/-- The chunks of one in-flight logical message as the receiver accepts
them: each carries the expected sequence number, which alternates by XOR
with 1. -/
def alternatingFrom (r : Nat) : List Segment → Prop
  | [] => True
  | s :: rest => s.sequence_number = r ∧ alternatingFrom (r ^^^ 1) rest

/-- C9: if the FIN sentinel is taken from the data mailbox during a logical
`receive()` — in particular after one or more chunks with `more = true`
were already accepted into the buffer — the call returns `None` and the
accumulated bytes are discarded, whatever they were. -/
theorem receive_incomplete_discarded (localA remote : VirtualAddress) :
    (∀ (r : Nat) rest (buffer : List Byte),
       receiveLoop localA remote r (none :: rest) buffer = some none) ∧
    (∀ (r : Nat) (s : Segment) rest (buffer : List Byte),
       s.sequence_number = r → s.payload.more = true →
       receiveLoop localA remote r (some s :: rest) buffer =
         receiveLoop localA remote (r ^^^ 1) rest
           (buffer ++ b64decode s.payload.data)) ∧
    (∀ (cs : List Segment) (r : Nat) (buffer : List Byte),
       (∀ c ∈ cs, c.payload.more = true) →
       alternatingFrom r cs →
       receiveLoop localA remote r (cs.map some ++ [none]) buffer = some none) := by
  refine ⟨?_, ?_, ?_⟩
  · intro r rest buffer
    simp [receiveLoop]
  · intro r s rest buffer hs hm
    simp [receiveLoop, hs, hm]
  · intro cs
    induction cs with
    | nil =>
        intro r buffer _ _
        simp [receiveLoop]
    | cons c rest ih =>
        intro r buffer hmore halt
        have hc : c.sequence_number = r := halt.1
        have hm : c.payload.more = true := hmore c (by simp)
        simp only [List.map_cons, List.cons_append, receiveLoop, hc, hm]
        simp only [ne_eq, not_true_eq_false, if_false, if_true, ite_false,
          ite_true, reduceIte]
        exact ih (r ^^^ 1) _ (fun x hx => hmore x (by simp [hx])) halt.2

/-- Witness for the partial-message theorem: a full-MSS-style chunk with
`more = true` followed by the FIN sentinel makes `receive()` return `None`
even though bytes were already buffered. -/
theorem receive_incomplete_discarded_witness :
    receiveLoop ⟨"2.2.2.2", 2⟩ ⟨"1.1.1.1", 1⟩ 0
        ([mkDataSegment ⟨"1.1.1.1", 1⟩ ⟨"2.2.2.2", 2⟩ 0 [9, 9] true].map some
          ++ [none]) [1, 2, 3] = some none := by
  exact (receive_incomplete_discarded ⟨"2.2.2.2", 2⟩ ⟨"1.1.1.1", 1⟩).2.2
    [mkDataSegment ⟨"1.1.1.1", 1⟩ ⟨"2.2.2.2", 2⟩ 0 [9, 9] true] 0 [1, 2, 3]
    (by simp [mkDataSegment]) (by simp [alternatingFrom, mkDataSegment])

/-- The counterexample scenario for the exactly-once `on_close` claim: a
remote FIN is dispatched to a fresh connection (invoking `on_close` once)
and the local side then calls `close()`, whose FIN gets a matching ACK
(invoking `on_close` again): two invocations in total. -/
theorem on_close_invoked_twice :
    ((ConnState.init ⟨"1.1.1.1", 1⟩ ⟨"2.2.2.2", 2⟩).dispatch
        (mkFinSegment ⟨"2.2.2.2", 2⟩ ⟨"1.1.1.1", 1⟩ 0)).1.onCloseCount +
      closeOnCloseInvocations
        ((ConnState.init ⟨"1.1.1.1", 1⟩ ⟨"2.2.2.2", 2⟩).dispatch
            (mkFinSegment ⟨"2.2.2.2", 2⟩ ⟨"1.1.1.1", 1⟩ 0)).1.send_sequence
        [some (mkAckSegment ⟨"2.2.2.2", 2⟩ ⟨"1.1.1.1", 1⟩ 0)] = 2 := by
  rfl

/-- C5 (amended): each finalization event invokes `on_close` exactly once —
dispatching a remote FIN increments the invocation count by exactly one
(and a non-FIN segment not at all), and a `close()` call that completes
(FIN ACKed or retries exhausted) invokes it exactly once — but when a
remote FIN is dispatched and the local side also completes a `close()`,
the callback is invoked twice, once per event. -/
theorem on_close_per_finalization (c : ConnState) (s : Segment) (sseq : Nat)
    (gets : List (Option Segment)) :
    (s.payload.fin = true →
       (c.dispatch s).1.onCloseCount = c.onCloseCount + 1) ∧
    (s.payload.fin = false →
       (c.dispatch s).1.onCloseCount = c.onCloseCount) ∧
    (∀ b, (closeRun sseq gets).2 = some b →
       closeOnCloseInvocations sseq gets = 1) ∧
    ((closeRun sseq gets).2 = none → closeOnCloseInvocations sseq gets = 0) ∧
    (s.payload.fin = true → (closeRun sseq gets).2.isSome →
       (c.dispatch s).1.onCloseCount + closeOnCloseInvocations sseq gets =
         c.onCloseCount + 2) := by
  refine ⟨?_, ?_, ?_, ?_, ?_⟩
  · intro hf
    simp [ConnState.dispatch, hf]
  · intro hf
    by_cases ha : s.is_ack <;> simp [ConnState.dispatch, hf, ha]
  · intro b hb
    simp [closeOnCloseInvocations, hb]
  · intro hb
    simp [closeOnCloseInvocations, hb]
  · intro hf hsome
    rcases Option.isSome_iff_exists.mp hsome with ⟨b, hb⟩
    simp [ConnState.dispatch, hf, closeOnCloseInvocations, hb]

/-- Witness for the per-finalization `on_close` theorem at concrete
inputs: a remote FIN dispatch, a data-segment dispatch, a close completed
by a matching ACK, and a close still waiting on an empty get list. -/
theorem on_close_per_finalization_witness :
    (((ConnState.init ⟨"1.1.1.1", 1⟩ ⟨"2.2.2.2", 2⟩).dispatch
        (mkFinSegment ⟨"2.2.2.2", 2⟩ ⟨"1.1.1.1", 1⟩ 0)).1.onCloseCount =
      (ConnState.init ⟨"1.1.1.1", 1⟩ ⟨"2.2.2.2", 2⟩).onCloseCount + 1) ∧
    (((ConnState.init ⟨"1.1.1.1", 1⟩ ⟨"2.2.2.2", 2⟩).dispatch
        (mkDataSegment ⟨"2.2.2.2", 2⟩ ⟨"1.1.1.1", 1⟩ 0 [7] false)).1.onCloseCount =
      (ConnState.init ⟨"1.1.1.1", 1⟩ ⟨"2.2.2.2", 2⟩).onCloseCount) ∧
    (closeOnCloseInvocations 0
      [some (mkAckSegment ⟨"2.2.2.2", 2⟩ ⟨"1.1.1.1", 1⟩ 0)] = 1) ∧
    (closeOnCloseInvocations 0 [] = 0) := by
  have h := on_close_per_finalization
    (ConnState.init ⟨"1.1.1.1", 1⟩ ⟨"2.2.2.2", 2⟩)
    (mkFinSegment ⟨"2.2.2.2", 2⟩ ⟨"1.1.1.1", 1⟩ 0) 0
    [some (mkAckSegment ⟨"2.2.2.2", 2⟩ ⟨"1.1.1.1", 1⟩ 0)]
  have h2 := on_close_per_finalization
    (ConnState.init ⟨"1.1.1.1", 1⟩ ⟨"2.2.2.2", 2⟩)
    (mkDataSegment ⟨"2.2.2.2", 2⟩ ⟨"1.1.1.1", 1⟩ 0 [7] false) 0
    ([] : List (Option Segment))
  exact ⟨h.1 rfl, h2.2.1 rfl, h.2.2.1 true rfl, h2.2.2.2.1 rfl⟩

/-- C4: routing a segment whose key matches no registered connection:
an ACK is silently dropped (no state change, nothing sent); a FIN is
answered with exactly one ACK carrying the FIN's sequence number, with no
connection created and the accept queue untouched; any other segment
creates a fresh connection registered under the segment's key, hands it
the segment via dispatch (so it sits in the new connection's data queue),
and enqueues the key on the accept queue, emitting nothing. -/
theorem route_unknown_key (st : TransportState) (s : Segment)
    (h : lookupConn (segmentKey s) st.connections = none) :
    (s.is_ack = true → route st s = (st, [])) ∧
    (s.is_ack = false → s.payload.fin = true →
       route st s =
         (st, [mkAckSegment st.local_address
                ⟨(segmentKey s).src_ip, (segmentKey s).src_port⟩
                s.sequence_number])) ∧
    (s.is_ack = false → s.payload.fin = false →
       route st s =
         ({ st with
            connections :=
              (segmentKey s,
               { ConnState.init st.local_address
                   ⟨(segmentKey s).src_ip, (segmentKey s).src_port⟩ with
                 data_queue := [some s] }) :: st.connections,
            acceptQueue := st.acceptQueue ++ [segmentKey s] }, [])) := by
  refine ⟨?_, ?_, ?_⟩
  · intro ha
    simp [route, h, ha]
  · intro ha hf
    simp [route, h, ha, hf]
  · intro ha hf
    simp [route, h, ha, hf, ConnState.dispatch, ConnState.init]

/-- Witness for the unknown-key routing theorem on an empty connection
table, with a stray ACK, a stray FIN, and a first data segment. -/
theorem route_unknown_key_witness :
    (route ⟨⟨"3.3.3.3", 3⟩, [], []⟩
        (mkAckSegment ⟨"1.1.1.1", 1⟩ ⟨"3.3.3.3", 3⟩ 0) =
      (⟨⟨"3.3.3.3", 3⟩, [], []⟩, [])) ∧
    (route ⟨⟨"3.3.3.3", 3⟩, [], []⟩
        (mkFinSegment ⟨"1.1.1.1", 1⟩ ⟨"3.3.3.3", 3⟩ 1) =
      (⟨⟨"3.3.3.3", 3⟩, [], []⟩,
       [mkAckSegment ⟨"3.3.3.3", 3⟩ ⟨"1.1.1.1", 1⟩ 1])) ∧
    (route ⟨⟨"3.3.3.3", 3⟩, [], []⟩
        (mkDataSegment ⟨"1.1.1.1", 1⟩ ⟨"3.3.3.3", 3⟩ 0 [7] false) =
      (⟨⟨"3.3.3.3", 3⟩,
        [(⟨"1.1.1.1", 1, 3⟩,
          { ConnState.init ⟨"3.3.3.3", 3⟩ ⟨"1.1.1.1", 1⟩ with
            data_queue := [some (mkDataSegment ⟨"1.1.1.1", 1⟩ ⟨"3.3.3.3", 3⟩ 0 [7] false)] })],
        [⟨"1.1.1.1", 1, 3⟩]⟩, [])) := by
  refine ⟨?_, ?_, ?_⟩
  · exact (route_unknown_key ⟨⟨"3.3.3.3", 3⟩, [], []⟩
      (mkAckSegment ⟨"1.1.1.1", 1⟩ ⟨"3.3.3.3", 3⟩ 0) rfl).1 rfl
  · exact (route_unknown_key ⟨⟨"3.3.3.3", 3⟩, [], []⟩
      (mkFinSegment ⟨"1.1.1.1", 1⟩ ⟨"3.3.3.3", 3⟩ 1) rfl).2.1 rfl rfl
  · exact (route_unknown_key ⟨⟨"3.3.3.3", 3⟩, [], []⟩
      (mkDataSegment ⟨"1.1.1.1", 1⟩ ⟨"3.3.3.3", 3⟩ 0 [7] false) rfl).2.2 rfl rfl

/-- C6: the router's `receive()` always returns `None` as a segment; a
packet with `ttl <= 0` is dropped with `dropped_ttl` incremented; otherwise
`ttl` is decremented by exactly one and the packet is re-emitted to the
routing-table next hop with `forwarded` incremented (so a packet arriving
with TTL = 1 is forwarded with TTL 0), or dropped with `dropped_unknown`
incremented when the destination has no entry. -/
theorem router_receive_spec (st : RouterState) (p : Packet) :
    (∀ pkt : Option Packet, (routerReceive st pkt).2.1 = none) ∧
    (p.ttl ≤ 0 →
       routerReceive st (some p) =
         ({ st with dropped_ttl := st.dropped_ttl + 1 }, none, [])) ∧
    (0 < p.ttl → ∀ nh, lookupTable p.dst_vip st.routing_table = some nh →
       routerReceive st (some p) =
         ({ st with forwarded := st.forwarded + 1 }, none,
          [({ p with ttl := p.ttl - 1 }, nh)])) ∧
    (0 < p.ttl → lookupTable p.dst_vip st.routing_table = none →
       routerReceive st (some p) =
         ({ st with dropped_unknown := st.dropped_unknown + 1 }, none, [])) ∧
    (p.ttl = 1 → ∀ nh, lookupTable p.dst_vip st.routing_table = some nh →
       (routerReceive st (some p)).2.2 = [({ p with ttl := 0 }, nh)]) := by
  refine ⟨?_, ?_, ?_, ?_, ?_⟩
  · intro pkt
    match pkt with
    | none => rfl
    | some q =>
        by_cases hq : q.ttl ≤ 0
        · simp [routerReceive, hq]
        · cases hl : lookupTable q.dst_vip st.routing_table <;>
            simp [routerReceive, hq, hl]
  · intro ht
    simp [routerReceive, ht]
  · intro ht nh hl
    have ht2 : ¬p.ttl ≤ 0 := by omega
    simp [routerReceive, ht2, hl]
  · intro ht hl
    have ht2 : ¬p.ttl ≤ 0 := by omega
    simp [routerReceive, ht2, hl]
  · intro ht nh hl
    have ht2 : ¬p.ttl ≤ 0 := by omega
    simp [routerReceive, ht2, hl, ht]

/-- Witness for the router theorem: a TTL-1 packet to a routed VIP is
forwarded with TTL 0; a TTL-0 packet bumps `dropped_ttl`; an unrouted VIP
bumps `dropped_unknown`. -/
theorem router_receive_spec_witness :
    ((routerReceive ⟨"R", [("1.1.1.1", "1.1.1.1")], 0, 0, 0⟩
        (some ⟨"2.2.2.2", "1.1.1.1", 1,
          mkAckSegment ⟨"2.2.2.2", 2⟩ ⟨"1.1.1.1", 1⟩ 0⟩)).2.2 =
      [(⟨"2.2.2.2", "1.1.1.1", 0,
          mkAckSegment ⟨"2.2.2.2", 2⟩ ⟨"1.1.1.1", 1⟩ 0⟩, "1.1.1.1")]) ∧
    (routerReceive ⟨"R", [("1.1.1.1", "1.1.1.1")], 0, 0, 0⟩
        (some ⟨"2.2.2.2", "1.1.1.1", 0,
          mkAckSegment ⟨"2.2.2.2", 2⟩ ⟨"1.1.1.1", 1⟩ 0⟩) =
      (⟨"R", [("1.1.1.1", "1.1.1.1")], 0, 1, 0⟩, none, [])) ∧
    (routerReceive ⟨"R", [("1.1.1.1", "1.1.1.1")], 0, 0, 0⟩
        (some ⟨"2.2.2.2", "9.9.9.9", 5,
          mkAckSegment ⟨"2.2.2.2", 2⟩ ⟨"1.1.1.1", 1⟩ 0⟩) =
      (⟨"R", [("1.1.1.1", "1.1.1.1")], 0, 0, 1⟩, none, [])) := by
  refine ⟨?_, ?_, ?_⟩
  · exact (router_receive_spec ⟨"R", [("1.1.1.1", "1.1.1.1")], 0, 0, 0⟩
      ⟨"2.2.2.2", "1.1.1.1", 1, mkAckSegment ⟨"2.2.2.2", 2⟩ ⟨"1.1.1.1", 1⟩ 0⟩).2.2.2.2
      rfl "1.1.1.1" rfl
  · exact (router_receive_spec ⟨"R", [("1.1.1.1", "1.1.1.1")], 0, 0, 0⟩
      ⟨"2.2.2.2", "1.1.1.1", 0, mkAckSegment ⟨"2.2.2.2", 2⟩ ⟨"1.1.1.1", 1⟩ 0⟩).2.1
      (by norm_num)
  · exact (router_receive_spec ⟨"R", [("1.1.1.1", "1.1.1.1")], 0, 0, 0⟩
      ⟨"2.2.2.2", "9.9.9.9", 5, mkAckSegment ⟨"2.2.2.2", 2⟩ ⟨"1.1.1.1", 1⟩ 0⟩).2.2.2.1
      (by norm_num) rfl

/-- C10: a forwarded packet is the received packet itself with only `ttl`
changed (decremented by one): `src_vip`, `dst_vip` and the embedded segment
are unchanged — in particular `src_vip` is not replaced by the router's own
VIP. -/
theorem router_forward_preserves (st : RouterState) (p : Packet) (nh : String)
    (h1 : 0 < p.ttl) (h2 : lookupTable p.dst_vip st.routing_table = some nh) :
    (routerReceive st (some p)).2.2 = [({ p with ttl := p.ttl - 1 }, nh)] ∧
    ∀ q ∈ (routerReceive st (some p)).2.2,
      q.1.src_vip = p.src_vip ∧ q.1.dst_vip = p.dst_vip ∧
      q.1.data = p.data ∧ q.1.ttl = p.ttl - 1 ∧ q.2 = nh := by
  have ht2 : ¬p.ttl ≤ 0 := by omega
  constructor
  · simp [routerReceive, ht2, h2]
  · intro q hq
    simp [routerReceive, ht2, h2] at hq
    simp [hq]

/-- Witness for the forwarding frame effect at a concrete packet: the
router re-emits it with its source VIP, destination VIP and segment
payload intact, only the TTL dropping from 7 to 6. -/
theorem router_forward_preserves_witness :
    (routerReceive ⟨"R", [("1.1.1.1", "1.1.1.1")], 0, 0, 0⟩
        (some ⟨"2.2.2.2", "1.1.1.1", 7,
          mkDataSegment ⟨"2.2.2.2", 2⟩ ⟨"1.1.1.1", 1⟩ 0 [7] false⟩)).2.2 =
      [(⟨"2.2.2.2", "1.1.1.1", 6,
          mkDataSegment ⟨"2.2.2.2", 2⟩ ⟨"1.1.1.1", 1⟩ 0 [7] false⟩, "1.1.1.1")] := by
  have h := (router_forward_preserves ⟨"R", [("1.1.1.1", "1.1.1.1")], 0, 0, 0⟩
    ⟨"2.2.2.2", "1.1.1.1", 7, mkDataSegment ⟨"2.2.2.2", 2⟩ ⟨"1.1.1.1", 1⟩ 0 [7] false⟩
    "1.1.1.1" (by norm_num) rfl).1
  simpa using h

/-- C7: the host network layer returns the embedded segment exactly when
the packet's `dst_vip` equals the local VIP and `None` otherwise, and the
decision ignores the packet's remaining TTL entirely (a TTL of 0 or below
is still delivered). -/
theorem host_receive_spec (v : String) (p : Packet) :
    (hostReceive v none = none) ∧
    (hostReceive v (some p) = some p.data ↔ p.dst_vip = v) ∧
    (p.dst_vip ≠ v → hostReceive v (some p) = none) ∧
    (∀ t : Int, hostReceive v (some { p with ttl := t }) =
      hostReceive v (some p)) := by
  refine ⟨rfl, ?_, ?_, ?_⟩
  · by_cases hd : p.dst_vip = v <;> simp [hostReceive, hd]
  · intro hd
    simp [hostReceive, hd]
  · intro t
    by_cases hd : p.dst_vip = v <;> simp [hostReceive, hd]

/-- Witness for host receive: delivery to the local VIP works even at
TTL 0, and a mismatched destination yields `None`. -/
theorem host_receive_spec_witness :
    (hostReceive "1.1.1.1"
        (some ⟨"2.2.2.2", "1.1.1.1", 0,
          mkAckSegment ⟨"2.2.2.2", 2⟩ ⟨"1.1.1.1", 1⟩ 0⟩) =
      some (mkAckSegment ⟨"2.2.2.2", 2⟩ ⟨"1.1.1.1", 1⟩ 0)) ∧
    (hostReceive "9.9.9.9"
        (some ⟨"2.2.2.2", "1.1.1.1", 64,
          mkAckSegment ⟨"2.2.2.2", 2⟩ ⟨"1.1.1.1", 1⟩ 0⟩) = none) := by
  constructor
  · exact (host_receive_spec "1.1.1.1"
      ⟨"2.2.2.2", "1.1.1.1", 0, mkAckSegment ⟨"2.2.2.2", 2⟩ ⟨"1.1.1.1", 1⟩ 0⟩).2.1.mpr
      rfl
  · exact (host_receive_spec "9.9.9.9"
      ⟨"2.2.2.2", "1.1.1.1", 64, mkAckSegment ⟨"2.2.2.2", 2⟩ ⟨"1.1.1.1", 1⟩ 0⟩).2.2.1
      (by simp)

/-- C8: `SimpleLink.send` raises the ARP `LookupError` exactly when its
destination VIP is missing from the ARP table (and then hands nothing
down), `HostNetwork.send` raises the route `LookupError` exactly when the
destination is missing from the routing table (and then hands nothing to
the link), and an ARP failure under a successful route lookup propagates
uncaught out of the network layer. -/
theorem send_lookup_failures (routing_table arp_table : List (String × String))
    (local_vip local_mac : String) (seg : Segment) (p : Packet)
    (dst : String) :
    ((∃ e, linkSend arp_table local_mac p dst = .error e) ↔
       lookupTable dst arp_table = none) ∧
    (∀ e, linkSend arp_table local_mac p dst = .error e →
       e = .arpFailure dst) ∧
    ((∃ x, hostSend routing_table arp_table local_vip local_mac seg dst =
        .error (.routeFailure x)) ↔ lookupTable dst routing_table = none) ∧
    (lookupTable dst routing_table = none →
       hostSend routing_table arp_table local_vip local_mac seg dst =
         .error (.routeFailure dst)) ∧
    (∀ nh, lookupTable dst routing_table = some nh →
       lookupTable nh arp_table = none →
       hostSend routing_table arp_table local_vip local_mac seg dst =
         .error (.arpFailure nh)) := by
  refine ⟨?_, ?_, ?_, ?_, ?_⟩
  · constructor
    · rintro ⟨e, he⟩
      cases hl : lookupTable dst arp_table with
      | none => rfl
      | some mac => simp [linkSend, hl] at he
    · intro hl
      exact ⟨.arpFailure dst, by simp [linkSend, hl]⟩
  · intro e he
    cases hl : lookupTable dst arp_table with
    | none =>
        simp [linkSend, hl] at he
        exact he.symm
    | some mac => simp [linkSend, hl] at he
  · constructor
    · rintro ⟨x, hx⟩
      cases hl : lookupTable dst routing_table with
      | none => rfl
      | some nh =>
          simp only [hostSend, hl] at hx
          cases ha : lookupTable nh arp_table with
          | none => simp [linkSend, ha] at hx
          | some mac => simp [linkSend, ha] at hx
    · intro hl
      exact ⟨dst, by simp [hostSend, hl]⟩
  · intro hl
    simp [hostSend, hl]
  · intro nh hl ha
    simp [hostSend, hl, linkSend, ha]

/-- Witness for the lookup-failure theorem: with a one-entry routing table
and empty ARP table, an unrouted VIP raises the route failure and a routed
VIP with no ARP entry propagates the ARP failure. -/
theorem send_lookup_failures_witness :
    (hostSend [("1.1.1.1", "R")] [] "2.2.2.2" "AA"
        (mkAckSegment ⟨"2.2.2.2", 2⟩ ⟨"1.1.1.1", 1⟩ 0) "9.9.9.9" =
      .error (.routeFailure "9.9.9.9")) ∧
    (hostSend [("1.1.1.1", "R")] [] "2.2.2.2" "AA"
        (mkAckSegment ⟨"2.2.2.2", 2⟩ ⟨"1.1.1.1", 1⟩ 0) "1.1.1.1" =
      .error (.arpFailure "R")) ∧
    (linkSend [] "AA"
        ⟨"2.2.2.2", "1.1.1.1", 64, mkAckSegment ⟨"2.2.2.2", 2⟩ ⟨"1.1.1.1", 1⟩ 0⟩
        "1.1.1.1" = .error (.arpFailure "1.1.1.1")) := by
  refine ⟨?_, ?_, ?_⟩
  · exact (send_lookup_failures [("1.1.1.1", "R")] [] "2.2.2.2" "AA"
      (mkAckSegment ⟨"2.2.2.2", 2⟩ ⟨"1.1.1.1", 1⟩ 0)
      ⟨"2.2.2.2", "1.1.1.1", 64, mkAckSegment ⟨"2.2.2.2", 2⟩ ⟨"1.1.1.1", 1⟩ 0⟩
      "9.9.9.9").2.2.2.1 rfl
  · exact (send_lookup_failures [("1.1.1.1", "R")] [] "2.2.2.2" "AA"
      (mkAckSegment ⟨"2.2.2.2", 2⟩ ⟨"1.1.1.1", 1⟩ 0)
      ⟨"2.2.2.2", "1.1.1.1", 64, mkAckSegment ⟨"2.2.2.2", 2⟩ ⟨"1.1.1.1", 1⟩ 0⟩
      "1.1.1.1").2.2.2.2 "R" rfl rfl
  · rcases (send_lookup_failures [("1.1.1.1", "R")] [] "2.2.2.2" "AA"
      (mkAckSegment ⟨"2.2.2.2", 2⟩ ⟨"1.1.1.1", 1⟩ 0)
      ⟨"2.2.2.2", "1.1.1.1", 64, mkAckSegment ⟨"2.2.2.2", 2⟩ ⟨"1.1.1.1", 1⟩ 0⟩
      "1.1.1.1").1.mpr rfl with ⟨e, he⟩
    have := (send_lookup_failures [("1.1.1.1", "R")] [] "2.2.2.2" "AA"
      (mkAckSegment ⟨"2.2.2.2", 2⟩ ⟨"1.1.1.1", 1⟩ 0)
      ⟨"2.2.2.2", "1.1.1.1", 64, mkAckSegment ⟨"2.2.2.2", 2⟩ ⟨"1.1.1.1", 1⟩ 0⟩
      "1.1.1.1").2.1 e he
    rw [this] at he
    exact he

end MiniNet
